import Mathlib

/- Verification of the Blade Element Momentum solver of the windwizards
final project (src/src of the repository).  The Python classes are
shallowly embedded over the rationals.  The numpy transcendental
functions (np.sin, np.cos, np.arctan2, np.sqrt) and the constant np.pi
are abstracted as parameters of the embedding, collected in a
NumericModel: the solver code treats them as black boxes, and every
control-flow and algebraic property below is independent of their
actual values unless a theorem states otherwise. -/

namespace WindWizards

/-- Abstraction of the numpy numeric primitives used by the solver. -/
structure NumericModel where
  sin : ℚ → ℚ
  cos : ℚ → ℚ
  atan2 : ℚ → ℚ → ℚ
  sqrt : ℚ → ℚ
  pi : ℚ

/-- Model of np.radians: degrees to radians. -/
def radiansQ (m : NumericModel) (x : ℚ) : ℚ := x * m.pi / 180

/-- Model of np.degrees: radians to degrees. -/
def degreesQ (m : NumericModel) (x : ℚ) : ℚ := x * 180 / m.pi

/-- Model of np.interp over a table of (x, y) samples sorted by x:
linear interpolation between adjacent samples, clamped to the boundary
sample outside the table range.  A total function: out-of-domain
queries never fail.  (np.interp on an empty table raises; the solver
only queries nonempty tables, and the empty case here returns 0.) -/
def npInterp (x : ℚ) : List (ℚ × ℚ) → ℚ
  | [] => 0
  | [p] => p.2
  | p :: q :: rest =>
    if x ≤ p.1 then p.2
    else if x ≤ q.1 then p.2 + (q.2 - p.2) * (x - p.1) / (q.1 - p.1)
    else npInterp x (q :: rest)

/-- One row of an airfoil polar table (src/src/Airfoil.py, AeroCoefficients). -/
structure AeroCoefficients where
  alpha : ℚ
  cl : ℚ
  cd : ℚ
  cm : ℚ
  deriving DecidableEq

/-- Airfoil (src/src/Airfoil.py); only the aero_data table feeds the
solver, the name/Reynolds/shape fields are presentation-only and are
omitted from the embedding. -/
structure Airfoil where
  aero_data : List AeroCoefficients
  deriving DecidableEq

/-- One control point of the operational schedule
(src/src/OperationalCharacteristics.py); aero_power and aero_thrust are
unused by the solver and omitted. -/
structure OperationalCharacteristic where
  wind_speed : ℚ
  pitch : ℚ
  rpm : ℚ
  deriving DecidableEq

/-- The operational schedule (src/src/OperationalCharacteristics.py). -/
structure OperationalCharacteristics where
  characteristics : List OperationalCharacteristic
  deriving DecidableEq

/-- Operational condition (src/src/OperationalCondition.py).  rpm and
omega are initialized to None and set by calculate_angular_velocity,
hence Option. -/
structure OperationalCondition where
  wind_speed : ℚ
  rho : ℚ
  num_blades : ℕ
  rpm : Option ℚ
  omega : Option ℚ
  deriving DecidableEq

/-- OperationalCondition.__init__ : rpm and omega start as None. -/
def OperationalCondition.init (wind_speed rho : ℚ) (num_blades : ℕ) :
    OperationalCondition :=
  { wind_speed := wind_speed, rho := rho, num_blades := num_blades,
    rpm := none, omega := none }

/-- OperationalCondition.calculate_angular_velocity: interpolates rpm
against the schedule wind speeds with np.interp and converts to rad/s.
The source reads the schedule through the blade object; the embedding
takes the schedule directly. -/
def calculate_angular_velocity (m : NumericModel) (cond : OperationalCondition)
    (oc : OperationalCharacteristics) : OperationalCondition :=
  let rpm := npInterp cond.wind_speed
    (oc.characteristics.map fun c => (c.wind_speed, c.rpm))
  { cond with rpm := some rpm, omega := some (rpm * 2 * m.pi / 60) }

/-- Mutable state of a BladeElement (src/src/BladeElement.py).  The
fields the solver populates are Option-valued, None until computed,
exactly as in __init__. -/
structure BladeElementState where
  r : ℚ
  twist : ℚ
  chord : ℚ
  airfoil_id : ℤ
  airfoil : Option Airfoil
  a : Option ℚ
  a_prime : Option ℚ
  Cn : Option ℚ
  Ct : Option ℚ
  cl : Option ℚ
  cd : Option ℚ
  alpha : Option ℚ
  phi : Option ℚ
  dr : Option ℚ
  dT : Option ℚ
  dM : Option ℚ
  L : Option ℚ
  D : Option ℚ
  Fn : Option ℚ
  Ft : Option ℚ
  V_rel : Option ℚ
  solidity : Option ℚ
  deriving DecidableEq

/-- BladeElement.__init__ : accepts airfoil = None without any check and
sets every derived field to None. -/
def BladeElement.init (r twist chord : ℚ) (airfoil_id : ℤ)
    (airfoil : Option Airfoil) : BladeElementState :=
  { r := r, twist := twist, chord := chord, airfoil_id := airfoil_id,
    airfoil := airfoil,
    a := none, a_prime := none, Cn := none, Ct := none, cl := none,
    cd := none, alpha := none, phi := none, dr := none, dT := none,
    dM := none, L := none, D := none, Fn := none, Ft := none,
    V_rel := none, solidity := none }

/-- BladeElement.calculate_solidity (src/src/BladeElement.py lines 75-95):
r = 0 gives solidity 1, otherwise num_blades * chord / (2 pi r) clamped
by min to 1.  Returns the updated element together with the returned
value. -/
def calculate_solidity (m : NumericModel) (cond : OperationalCondition)
    (st : BladeElementState) : BladeElementState × ℚ :=
  if st.r = 0 then ({ st with solidity := some 1 }, 1)
  else
    let s := min (((cond.num_blades : ℚ) * st.chord) / (2 * m.pi * st.r)) 1
    ({ st with solidity := some s }, s)

/-- The loop of BladeElement.compute_element_induction_factors
(src/src/BladeElement.py lines 128-144), fuel = remaining iterations of
range(max_iterations).  Each iteration recomputes phi, computes the
updates a_new and a_prime_new, and breaks BEFORE the assignment
a, a_prime = a_new, a_prime_new when both are within tolerance; fuel
exhaustion returns the current pair.  A total function: the loop body
raises nothing (numpy division by a zero denominator yields a
non-finite float, not an exception; the embedding uses the total
rational division). -/
def ceifLoop (m : NumericModel) (solidity wind_speed omega r Cn Ct tolerance : ℚ) :
    ℕ → ℚ → ℚ → ℚ × ℚ
  | 0, a, a_prime => (a, a_prime)
  | Nat.succ n, a, a_prime =>
    let phi := m.atan2 ((1 - a) * wind_speed) ((1 + a_prime) * omega * r)
    let a_new := 1 / ((4 * m.sin phi ^ 2) / (solidity * Cn) + 1)
    let a_prime_new := 1 / ((4 * m.sin phi * m.cos phi) / (solidity * Ct) - 1)
    if |a - a_new| < tolerance ∧ |a_prime - a_prime_new| < tolerance then
      (a, a_prime)
    else
      ceifLoop m solidity wind_speed omega r Cn Ct tolerance n a_new a_prime_new

/-- BladeElement.compute_element_induction_factors, in the argument order
of the source method; self.solidity is passed explicitly.  The phi
argument is dead in the source (overwritten on the first loop pass and
never returned) and is likewise unused here. -/
def compute_element_induction_factors (m : NumericModel) (solidity : ℚ)
    (a a_prime wind_speed omega r phi Cn Ct tolerance : ℚ)
    (max_iterations : ℕ) : ℚ × ℚ :=
  ceifLoop m solidity wind_speed omega r Cn Ct tolerance max_iterations a a_prime

/-- Modelled from the spec: one update step of the fixed-point
iteration exactly as written in section 4.3 steps a, f, g of the spec:
phi = atan2((1-a) V, (1+a_prime) Omega r) recomputed from the current
iterate, a_new = 1/(4 sin(phi)^2/(sigma Cn) + 1), and the tangential
update with the MINUS-one denominator,
a_prime_new = 1/(4 sin(phi) cos(phi)/(sigma Ct) - 1).  Used to compare
the source loop against the spec formulas. -/
def specInductionUpdate (m : NumericModel) (solidity wind_speed omega r Cn Ct : ℚ)
    (p : ℚ × ℚ) : ℚ × ℚ :=
  let phi := m.atan2 ((1 - p.1) * wind_speed) ((1 + p.2) * omega * r)
  (1 / ((4 * m.sin phi ^ 2) / (solidity * Cn) + 1),
   1 / ((4 * m.sin phi * m.cos phi) / (solidity * Ct) - 1))

/-- The update formulas of the superseded snapshot
MomentumTheory.compute_element_induction_factors
(src/src/MomentumTheory.py lines 51-62): the tangential denominator
uses PLUS one, and phi is not recomputed inside that loop. -/
def momentumInductionUpdate (m : NumericModel) (solidity phi Cn Ct : ℚ) : ℚ × ℚ :=
  (1 / (1 + (4 * m.sin phi ^ 2) / (solidity * Cn)),
   1 / (1 + (4 * m.sin phi * m.cos phi) / (solidity * Ct)))

/-- BladeElement.compute_induction_factors (src/src/BladeElement.py
lines 146-237).  Reads omega from the condition (None there is a
TypeError in the source, modelled as Option.none).  When the element
has an airfoil with nonempty aero_data it interpolates pitch, Cl and Cd
with np.interp, forms Cn and Ct, runs the fixed-point loop (reading
self.solidity, whose None is again a TypeError), recomputes phi and
stores the results; otherwise it silently skips all of that and returns
the stored (still None) fields.  Returns the updated element and the
returned 8-tuple. -/
def compute_induction_factors (m : NumericModel) (st : BladeElementState)
    (a_guess a_prime_guess : ℚ) (max_iterations : ℕ) (tolerance : ℚ)
    (operational_characteristics : OperationalCharacteristics)
    (operational_condition : OperationalCondition) :
    Option (BladeElementState ×
      (Option ℚ × Option ℚ × Option ℚ × Option ℚ ×
       Option ℚ × Option ℚ × Option ℚ × Option ℚ)) := do
  let a := a_guess
  let a_prime := a_prime_guess
  let wind_speed := operational_condition.wind_speed
  let omega ← operational_condition.omega
  let r := st.r
  let phi := m.atan2 ((1 - a) * wind_speed) ((1 + a_prime) * omega * r)
  match st.airfoil with
  | some airfoil =>
    if airfoil.aero_data = [] then
      some (st, (st.a, st.a_prime, st.alpha, st.cl, st.cd, st.phi, st.Cn, st.Ct))
    else
      let twist_rad := radiansQ m st.twist
      let pitch_rad := npInterp wind_speed
        (operational_characteristics.characteristics.map fun op =>
          (op.wind_speed, radiansQ m op.pitch))
      let alpha := phi - (pitch_rad + twist_rad)
      let Cl := npInterp (degreesQ m alpha)
        (airfoil.aero_data.map fun d => (d.alpha, d.cl))
      let Cd := npInterp (degreesQ m alpha)
        (airfoil.aero_data.map fun d => (d.alpha, d.cd))
      let Cn := Cl * m.cos phi + Cd * m.sin phi
      let Ct := Cl * m.sin phi - Cd * m.cos phi
      let solidity ← st.solidity
      let p := compute_element_induction_factors m solidity a a_prime
        wind_speed omega r phi Cn Ct tolerance max_iterations
      let phi2 := m.atan2 ((1 - p.1) * wind_speed) ((1 + p.2) * omega * r)
      let st2 := { st with alpha := some alpha, cl := some Cl, cd := some Cd,
                           a := some p.1, a_prime := some p.2, phi := some phi2,
                           Cn := some Cn, Ct := some Ct }
      some (st2, (st2.a, st2.a_prime, st2.alpha, st2.cl, st2.cd, st2.phi,
                  st2.Cn, st2.Ct))
  | none =>
    some (st, (st.a, st.a_prime, st.alpha, st.cl, st.cd, st.phi, st.Cn, st.Ct))

/-- Python exception kinds reachable from
Blade.calculate_element_discretization_lengths. -/
inductive PyErr where
  | valueError : PyErr
  | indexError : PyErr
  deriving DecidableEq

/-- Python list indexing l[i] for the nonnegative indices used by the
discretization loop: IndexError when out of range. -/
def pyGet (l : List ℚ) (i : ℕ) : Except PyErr ℚ :=
  match l.get? i with
  | some v => Except.ok v
  | none => Except.error PyErr.indexError

/-- The body of the loop of
Blade.calculate_element_discretization_lengths
(src/src/Blade.py lines 65-72) at index i: the first element reads
elements[i+1] unconditionally, the last reads elements[i-1], interior
elements read both neighbors. -/
def drStep (rs : List ℚ) (i : ℕ) : Except PyErr ℚ :=
  if i = 0 then do
    let r1 ← pyGet rs (i + 1)
    let r0 ← pyGet rs i
    Except.ok ((r1 - r0) / 2)
  else if i = rs.length - 1 then do
    let ri ← pyGet rs i
    let rp ← pyGet rs (i - 1)
    Except.ok ((ri - rp) / 2)
  else do
    let rn ← pyGet rs (i + 1)
    let rp ← pyGet rs (i - 1)
    Except.ok ((rn - rp) / 2)

/-- Runs drStep over a list of indices, propagating the first
exception, and collects the assigned dr values in order. -/
def drLoop (rs : List ℚ) : List ℕ → Except PyErr (List ℚ)
  | [] => Except.ok []
  | i :: is => do
    let dr ← drStep rs i
    let rest ← drLoop rs is
    Except.ok (dr :: rest)

/-- Blade.calculate_element_discretization_lengths
(src/src/Blade.py lines 59-72) on the list of element radii: an empty
blade raises ValueError explicitly, otherwise the loop runs over
enumerate(self.elements); the dr values written onto the elements are
returned as a list. -/
def calculate_element_discretization_lengths (rs : List ℚ) :
    Except PyErr (List ℚ) :=
  if rs.isEmpty then Except.error PyErr.valueError
  else drLoop rs (List.range rs.length)

/-- The per-element body of
BladeElementTheory.compute_aerodynamic_performance
(src/src/BladeElementTheory.py lines 221-258): reads the solved fields
of the element (None is a TypeError in the source, modelled as none),
computes V_rel, L, D, Fn, Ft and the momentum-theory elemental loads
dT and dM, stores them on the element and yields (element, dT, dM). -/
def elementLoads (m : NumericModel) (wind_speed omega rho : ℚ)
    (e : BladeElementState) : Option (BladeElementState × ℚ × ℚ) := do
  let r := e.r
  let dr ← e.dr
  let _alpha := e.alpha
  let phi ← e.phi
  let chord := e.chord
  let Cl ← e.cl
  let Cd ← e.cd
  let a ← e.a
  let a_prime ← e.a_prime
  let V_rel := m.sqrt (((1 - a) * wind_speed) ^ 2 + ((1 + a_prime) * omega * r) ^ 2)
  let L := (0.5 : ℚ) * rho * V_rel ^ 2 * chord * Cl
  let D := (0.5 : ℚ) * rho * V_rel ^ 2 * chord * Cd
  let Fn := L * m.cos phi + D * m.sin phi
  let Ft := L * m.sin phi - D * m.cos phi
  let dT := 4 * m.pi * r * rho * wind_speed ^ 2 * a * (1 - a) * dr
  let dM := 4 * m.pi * r ^ 3 * rho * wind_speed * omega * a_prime * (1 - a) * dr
  some ({ e with L := some L, D := some D, Fn := some Fn, Ft := some Ft,
                 dT := some dT, dM := some dM, V_rel := some V_rel }, dT, dM)

/-- The accumulation loop of compute_aerodynamic_performance: updates
every element and sums the elemental thrust and torque. -/
def perfLoop (m : NumericModel) (wind_speed omega rho : ℚ) :
    List BladeElementState → Option (List BladeElementState × ℚ × ℚ)
  | [] => some ([], 0, 0)
  | e :: rest => do
    let x ← elementLoads m wind_speed omega rho e
    let y ← perfLoop m wind_speed omega rho rest
    some (x.1 :: y.1, x.2.1 + y.2.1, x.2.2 + y.2.2)

/-- BladeElementTheory.compute_aerodynamic_performance
(src/src/BladeElementTheory.py lines 192-274).  R is self.blade.R,
passed explicitly.  Total power is torque times omega; the coefficient
denominators are guarded by the source conditionals
(x if denom != 0 else 0).  Returns the updated elements and the tuple
(total_thrust, total_torque, total_power, ct, cp). -/
def compute_aerodynamic_performance (m : NumericModel)
    (elements : List BladeElementState) (R : ℚ) (cond : OperationalCondition) :
    Option (List BladeElementState × (ℚ × ℚ × ℚ × ℚ × ℚ)) := do
  let A := m.pi * R ^ 2
  let wind_speed := cond.wind_speed
  let omega ← cond.omega
  let rho := cond.rho
  let y ← perfLoop m wind_speed omega rho elements
  let total_thrust := y.2.1
  let total_torque := y.2.2
  let total_power := total_torque * omega
  let denom_T := (0.5 : ℚ) * rho * A * wind_speed ^ 2
  let denom_P := (0.5 : ℚ) * rho * A * wind_speed ^ 3
  let ct := if denom_T ≠ 0 then total_thrust / denom_T else 0
  let cp := if denom_P ≠ 0 then total_power / denom_P else 0
  some (y.1, (total_thrust, total_torque, total_power, ct, cp))

/-- A concrete numeric oracle used for closed evaluations: sin and cos
are the constants 3/5 and 4/5 (a 3-4-5 point, so sin^2 + cos^2 = 1),
atan2 and sqrt return 0, pi is a rational stand-in. -/
def trigSample : NumericModel :=
  { sin := fun _ => 3 / 5, cos := fun _ => 4 / 5,
    atan2 := fun _ _ => 0, sqrt := fun _ => 0, pi := 355 / 113 }

/-- A concrete numeric oracle for the phi = 0 degenerate point:
sin is constantly 0 and cos constantly 1, as at atan2(0, 0) = 0. -/
def zeroSinTrig : NumericModel :=
  { sin := fun _ => 0, cos := fun _ => 1,
    atan2 := fun _ _ => 0, sqrt := fun _ => 0, pi := 355 / 113 }

/-- A sample unsolved element used by concrete witnesses. -/
def sampleElement : BladeElementState := BladeElement.init 5 10 (1 / 2) 0 none

/-- A sample operational condition with omega already set, used by
concrete witnesses. -/
def sampleCondition : OperationalCondition :=
  { wind_speed := 10, rho := 1.225, num_blades := 3, rpm := none,
    omega := some (4 / 5) }

/-- A sample operational schedule used by concrete witnesses. -/
def sampleSchedule : OperationalCharacteristics :=
  { characteristics :=
      [{ wind_speed := 8, pitch := 0, rpm := 6 },
       { wind_speed := 10, pitch := 2, rpm := 8 }] }

/-- A sample fully solved element used by concrete witnesses. -/
def sampleSolvedElement : BladeElementState :=
  { r := 5, twist := 10, chord := 1 / 2, airfoil_id := 0, airfoil := none,
    a := some 1, a_prime := some (-1), Cn := some 1, Ct := some (-(1 / 100)),
    cl := some 1, cd := some (1 / 100), alpha := some 0, phi := some 0,
    dr := some 1, dT := none, dM := none, L := none, D := none, Fn := none,
    Ft := none, V_rel := none, solidity := some (1 / 10) }

/-- The zero-wind operating point V = 0, Omega = 0. -/
def zeroWindCondition : OperationalCondition :=
  { wind_speed := 0, rho := 1.225, num_blades := 3, rpm := some 0,
    omega := some 0 }

/-- The sample element after the zero-wind load computation. -/
def sampleLoadedElement : BladeElementState :=
  { sampleSolvedElement with
    L := some 0, D := some 0, Fn := some 0,
    Ft := some 0, dT := some 0, dM := some 0, V_rel := some 0 }

/-- The rotor aggregation output at the zero-wind witness point. -/
def sampleZeroWindOutput : List BladeElementState × (ℚ × ℚ × ℚ × ℚ × ℚ) :=
  ([sampleLoadedElement], (0, 0, 0, 0, 0))

/-- C6: calculate_solidity returns min(1, num_blades * chord / (2 pi r)),
returns exactly 1 when r = 0, stores the value on the element, and the
result lies in [0, 1] for physical inputs (nonnegative radius and
chord, positive pi). -/
theorem solidity_clamped_unit_interval (m : NumericModel)
    (cond : OperationalCondition) (st : BladeElementState)
    (hr : 0 ≤ st.r) (hc : 0 ≤ st.chord) (hpi : 0 < m.pi) :
    (st.r = 0 → (calculate_solidity m cond st).2 = 1) ∧
    (st.r ≠ 0 → (calculate_solidity m cond st).2 =
      min 1 (((cond.num_blades : ℚ) * st.chord) / (2 * m.pi * st.r))) ∧
    0 ≤ (calculate_solidity m cond st).2 ∧
    (calculate_solidity m cond st).2 ≤ 1 ∧
    (calculate_solidity m cond st).1.solidity =
      some ((calculate_solidity m cond st).2) := by
  by_cases h : st.r = 0
  · refine ⟨fun _ => ?_, fun hh => absurd h hh, ?_, ?_, ?_⟩ <;>
      simp [calculate_solidity, h]
  · have hr0 : 0 < st.r := lt_of_le_of_ne hr (Ne.symm h)
    have hx : 0 ≤ ((cond.num_blades : ℚ) * st.chord) / (2 * m.pi * st.r) := by
      positivity
    refine ⟨fun hh => absurd hh h, fun _ => ?_, ?_, ?_, ?_⟩
    · simp [calculate_solidity, h, min_comm]
    · simp only [calculate_solidity, if_neg h]
      exact le_min hx zero_le_one
    · simp only [calculate_solidity, if_neg h]
      exact min_le_right _ _
    · simp [calculate_solidity, h]

/-- Witness for C6 at the spec example r = 5, chord = 0.5,
num_blades = 3. -/
theorem solidity_clamped_unit_interval_witness :
    (0 : ℚ) ≤ sampleElement.r ∧ (0 : ℚ) ≤ sampleElement.chord ∧
    (0 : ℚ) < trigSample.pi ∧
    0 ≤ (calculate_solidity trigSample sampleCondition sampleElement).2 ∧
    (calculate_solidity trigSample sampleCondition sampleElement).2 ≤ 1 :=
  ⟨by norm_num [sampleElement, BladeElement.init],
   by norm_num [sampleElement, BladeElement.init],
   by norm_num [trigSample],
   (solidity_clamped_unit_interval trigSample sampleCondition sampleElement
     (by norm_num [sampleElement, BladeElement.init])
     (by norm_num [sampleElement, BladeElement.init])
     (by norm_num [trigSample])).2.2.1,
   (solidity_clamped_unit_interval trigSample sampleCondition sampleElement
     (by norm_num [sampleElement, BladeElement.init])
     (by norm_num [sampleElement, BladeElement.init])
     (by norm_num [trigSample])).2.2.2.1⟩

lemma pyGet_ok (l : List ℚ) (i : ℕ) (h : i < l.length) :
    pyGet l i = Except.ok (l.getD i 0) := by
  unfold pyGet
  rw [List.get?_eq_getElem?, List.getElem?_eq_getElem h, List.getD_eq_getElem l 0 h]

lemma drStep_ok (rs : List ℚ) (hlen : 2 ≤ rs.length) (i : ℕ)
    (hi : i < rs.length) :
    drStep rs i = Except.ok (
      if i = 0 then (rs.getD 1 0 - rs.getD 0 0) / 2
      else if i = rs.length - 1 then (rs.getD i 0 - rs.getD (i - 1) 0) / 2
      else (rs.getD (i + 1) 0 - rs.getD (i - 1) 0) / 2) := by
  unfold drStep
  by_cases h0 : i = 0
  · subst h0
    rw [pyGet_ok rs (0 + 1) (by omega), pyGet_ok rs 0 (by omega)]
    rfl
  · by_cases hl : i = rs.length - 1
    · simp only [if_neg h0, if_pos hl]
      rw [pyGet_ok rs i hi, pyGet_ok rs (i - 1) (by omega)]
      rfl
    · simp only [if_neg h0, if_neg hl]
      rw [pyGet_ok rs (i + 1) (by omega), pyGet_ok rs (i - 1) (by omega)]
      rfl

lemma drLoop_ok (rs : List ℚ) (f : ℕ → ℚ) :
    ∀ is : List ℕ, (∀ i ∈ is, drStep rs i = Except.ok (f i)) →
      drLoop rs is = Except.ok (is.map f) := by
  intro is h
  induction is with
  | nil => rfl
  | cons i t ih =>
    have hstep := h i (by simp)
    have htail := ih (fun j hj => h j (by simp [hj]))
    rw [drLoop, hstep, htail]
    rfl

/-- C7: with at least two stations, the discretization succeeds and
assigns to the first station half the gap to the next, to the last half
the gap to the previous, and to interior stations half the gap between
their two neighbors. -/
theorem discretization_lengths_formula (rs : List ℚ)
    (hlen : 2 ≤ rs.length) (hsorted : List.Chain' (· < ·) rs) :
    calculate_element_discretization_lengths rs = Except.ok
      ((List.range rs.length).map fun i =>
        if i = 0 then (rs.getD 1 0 - rs.getD 0 0) / 2
        else if i = rs.length - 1 then (rs.getD i 0 - rs.getD (i - 1) 0) / 2
        else (rs.getD (i + 1) 0 - rs.getD (i - 1) 0) / 2) := by
  unfold calculate_element_discretization_lengths
  have hne : rs.isEmpty = false := by
    cases rs with
    | nil => simp at hlen
    | cons a t => rfl
  rw [hne]
  simp only [Bool.false_eq_true, if_false]
  exact drLoop_ok rs _ (List.range rs.length)
    (fun i hi => drStep_ok rs hlen i (List.mem_range.mp hi))

/-- Witness for C7: the spec example radii [2, 4, 6] give
dr = [1, 2, 1]. -/
theorem discretization_lengths_formula_witness :
    calculate_element_discretization_lengths [2, 4, 6] =
      Except.ok [1, 2, 1] := by
  have h := discretization_lengths_formula [2, 4, 6] (by norm_num)
    (by norm_num [List.chain'_cons, List.chain'_singleton])
  rw [h]
  norm_num [List.range_succ, List.getD]

/-- C10: a single-station blade hits an uncaught IndexError (the
first-element branch reads elements[i+1] unconditionally), while only
the empty blade is rejected with an explicit ValueError. -/
theorem single_element_discretization_index_error (r : ℚ) :
    calculate_element_discretization_lengths [r] =
      Except.error PyErr.indexError ∧
    calculate_element_discretization_lengths ([] : List ℚ) =
      Except.error PyErr.valueError :=
  ⟨rfl, rfl⟩

/-- Witness for C10 at a concrete radius. -/
theorem single_element_discretization_index_error_witness :
    calculate_element_discretization_lengths [(9 : ℚ)] =
      Except.error PyErr.indexError :=
  (single_element_discretization_index_error 9).1

/-- At zero wind speed every successful elemental load computation
yields dT = dM = 0: both formulas carry a factor of the wind speed. -/
lemma elementLoads_wind_zero (m : NumericModel) (omega rho : ℚ)
    (e : BladeElementState) (x : BladeElementState × ℚ × ℚ)
    (h : elementLoads m 0 omega rho e = some x) : x.2.1 = 0 ∧ x.2.2 = 0 := by
  simp only [elementLoads, Option.bind_eq_bind, Option.bind_eq_some] at h
  obtain ⟨dr, hdr, phi, hphi, Cl, hCl, Cd, hCd, a, ha, ap, hap, hx⟩ := h
  have hx2 : x.2.1 = 4 * m.pi * e.r * rho * 0 ^ 2 * a * (1 - a) * dr ∧
      x.2.2 = 4 * m.pi * e.r ^ 3 * rho * 0 * omega * ap * (1 - a) * dr := by
    cases hx
    exact ⟨rfl, rfl⟩
  constructor
  · rw [hx2.1]; ring
  · rw [hx2.2]; ring

lemma ceifLoop_succ (m : NumericModel) (solidity V Omega r Cn Ct tol : ℚ)
    (n : ℕ) (a b : ℚ) :
    ceifLoop m solidity V Omega r Cn Ct tol (n + 1) a b =
      if |a - (specInductionUpdate m solidity V Omega r Cn Ct (a, b)).1| < tol ∧
         |b - (specInductionUpdate m solidity V Omega r Cn Ct (a, b)).2| < tol
      then (a, b)
      else ceifLoop m solidity V Omega r Cn Ct tol n
        (specInductionUpdate m solidity V Omega r Cn Ct (a, b)).1
        (specInductionUpdate m solidity V Omega r Cn Ct (a, b)).2 := rfl

/-- The loop of the source, run from (a, b), is exactly the iteration
of the spec update map as long as the convergence test keeps failing
along the trajectory. -/
lemma ceifLoop_eq_iterate (m : NumericModel) (solidity V Omega r Cn Ct tol : ℚ) :
    ∀ (n : ℕ) (a b : ℚ),
      (∀ k < n,
        ¬ (|((specInductionUpdate m solidity V Omega r Cn Ct)^[k] (a, b)).1 -
             ((specInductionUpdate m solidity V Omega r Cn Ct)^[k + 1] (a, b)).1| < tol ∧
           |((specInductionUpdate m solidity V Omega r Cn Ct)^[k] (a, b)).2 -
             ((specInductionUpdate m solidity V Omega r Cn Ct)^[k + 1] (a, b)).2| < tol)) →
      ceifLoop m solidity V Omega r Cn Ct tol n a b =
        (specInductionUpdate m solidity V Omega r Cn Ct)^[n] (a, b) := by
  intro n
  induction n with
  | zero => intro a b _; rfl
  | succ n ih =>
    intro a b h
    rw [ceifLoop_succ]
    have h0 := h 0 (Nat.succ_pos n)
    simp only [Function.iterate_zero_apply, zero_add, Function.iterate_one] at h0
    rw [if_neg h0]
    have hrec := ih (specInductionUpdate m solidity V Omega r Cn Ct (a, b)).1
      (specInductionUpdate m solidity V Omega r Cn Ct (a, b)).2 ?_
    · rw [hrec]
      simp only [Prod.mk.eta]
      rw [← Function.iterate_succ_apply]
    · intro k hk
      have hshift := h (k + 1) (Nat.succ_lt_succ hk)
      simp only [Prod.mk.eta, ← Function.iterate_succ_apply]
      exact hshift

/-- C3: if the convergence test fails at every pass, the loop runs all
max_iterations passes and returns the final iterate (the updates of the
last pass), with no exception and no flag: the function is total with
plain pair codomain, and the result is exactly the n-fold spec update of
the starting pair. -/
theorem nonconvergence_returns_last_iterate (m : NumericModel)
    (solidity a b V Omega r phi Cn Ct tol : ℚ) (n : ℕ)
    (h : ∀ k < n,
      ¬ (|((specInductionUpdate m solidity V Omega r Cn Ct)^[k] (a, b)).1 -
           ((specInductionUpdate m solidity V Omega r Cn Ct)^[k + 1] (a, b)).1| < tol ∧
         |((specInductionUpdate m solidity V Omega r Cn Ct)^[k] (a, b)).2 -
           ((specInductionUpdate m solidity V Omega r Cn Ct)^[k + 1] (a, b)).2| < tol)) :
    compute_element_induction_factors m solidity a b V Omega r phi Cn Ct tol n =
      (specInductionUpdate m solidity V Omega r Cn Ct)^[n] (a, b) :=
  ceifLoop_eq_iterate m solidity V Omega r Cn Ct tol n a b h

/-- Witness for C3 with tolerance 0, under which the strict convergence
test can never pass. -/
theorem nonconvergence_returns_last_iterate_witness :
    compute_element_induction_factors trigSample 1 (1 / 3) (1 / 7) 0 0 5 0
        (36 / 25) (96 / 25) 0 2 =
      (specInductionUpdate trigSample 1 0 0 5 (36 / 25) (96 / 25))^[2]
        (1 / 3, 1 / 7) :=
  nonconvergence_returns_last_iterate trigSample 1 (1 / 3) (1 / 7) 0 0 5 0
    (36 / 25) (96 / 25) 0 2
    (fun _ _ hc => absurd (lt_of_lt_of_le hc.1 (le_refl 0))
      (not_lt.mpr (abs_nonneg _)))

/-- C1: the per-station fixed-point solve used by the blade pipeline
(BladeElement.compute_element_induction_factors) applies, on every
iteration, exactly the spec update: phi recomputed from the current
iterate, a_new = 1/(4 sin(phi)^2/(sigma Cn) + 1) and the tangential
update with MINUS one in the denominator.  The closed conjuncts
evaluate one pass at a concrete point: it yields the minus-one value
-2, which differs from the 2/3 the plus-one form of the superseded
MomentumTheory snapshot would give. -/
theorem induction_update_matches_spec_minus_one_form :
    (∀ (m : NumericModel) (solidity a b V Omega r phi Cn Ct tol : ℚ) (n : ℕ),
      tol ≤ 0 →
      compute_element_induction_factors m solidity a b V Omega r phi Cn Ct tol n =
        (specInductionUpdate m solidity V Omega r Cn Ct)^[n] (a, b)) ∧
    (specInductionUpdate trigSample 1 0 0 5 (36 / 25) (96 / 25) (0, 0)).2 = -2 ∧
    (momentumInductionUpdate trigSample 1 0 (36 / 25) (96 / 25)).2 = 2 / 3 ∧
    compute_element_induction_factors trigSample 1 0 0 0 0 5 0 (36 / 25) (96 / 25)
        0 1 = (1 / 2, -2) := by
  have key : ∀ (m : NumericModel) (solidity a b V Omega r phi Cn Ct tol : ℚ)
      (n : ℕ), tol ≤ 0 →
      compute_element_induction_factors m solidity a b V Omega r phi Cn Ct tol n =
        (specInductionUpdate m solidity V Omega r Cn Ct)^[n] (a, b) := by
    intro m solidity a b V Omega r phi Cn Ct tol n htol
    exact ceifLoop_eq_iterate m solidity V Omega r Cn Ct tol n a b
      (fun _ _ hc => absurd (lt_of_lt_of_le hc.1 htol)
        (not_lt.mpr (abs_nonneg _)))
  refine ⟨key, ?_, ?_, ?_⟩
  · norm_num [specInductionUpdate, trigSample]
  · norm_num [momentumInductionUpdate, trigSample]
  · rw [key trigSample 1 0 0 0 0 5 0 (36 / 25) (96 / 25) 0 1 (le_refl 0)]
    simp only [Function.iterate_one]
    norm_num [specInductionUpdate, trigSample]

/-- Witness for C1 discharging the tolerance hypothesis at 0. -/
theorem induction_update_matches_spec_minus_one_form_witness :
    (0 : ℚ) ≤ 0 ∧
    compute_element_induction_factors trigSample 1 (1 / 3) (1 / 7) 0 0 5 0
        (36 / 25) (96 / 25) 0 3 =
      (specInductionUpdate trigSample 1 0 0 5 (36 / 25) (96 / 25))^[3]
        (1 / 3, 1 / 7) :=
  ⟨le_refl 0, induction_update_matches_spec_minus_one_form.1 trigSample 1
    (1 / 3) (1 / 7) 0 0 5 0 (36 / 25) (96 / 25) 0 3 (le_refl 0)⟩

/-- Counterexample to C2: a concrete run in which the convergence test
passes on the first pass.  The loop breaks BEFORE the assignment, so it
returns the previous iterate (11/20, -39/20); the freshly computed
updates are (1/2, -2), and the two differ.  C2 claims the returned pair
is the fresh update. -/
theorem converged_return_is_previous_iterate_cex :
    compute_element_induction_factors trigSample 1 (11 / 20) (-(39 / 20)) 0 0 5 0
        (36 / 25) (96 / 25) (1 / 10) 5 = (11 / 20, -(39 / 20)) ∧
    specInductionUpdate trigSample 1 0 0 5 (36 / 25) (96 / 25)
        (11 / 20, -(39 / 20)) = (1 / 2, -2) ∧
    ((11 / 20 : ℚ), (-(39 / 20) : ℚ)) ≠ ((1 / 2 : ℚ), (-2 : ℚ)) := by
  have hupd : specInductionUpdate trigSample 1 0 0 5 (36 / 25) (96 / 25)
      (11 / 20, -(39 / 20)) = (1 / 2, -2) := by
    norm_num [specInductionUpdate, trigSample]
  refine ⟨?_, hupd, by norm_num⟩
  show ceifLoop trigSample 1 0 0 5 (36 / 25) (96 / 25) (1 / 10) 5 (11 / 20)
    (-(39 / 20)) = (11 / 20, -(39 / 20))
  rw [show (5 : ℕ) = 4 + 1 from rfl, ceifLoop_succ, hupd]
  rw [if_pos (by constructor <;> norm_num [abs_lt])]

/-- C2 amended: when the convergence test passes, the loop stops and
returns the CURRENT iterate (a, b), each component within tolerance of,
but in general not equal to, the fresh updates. -/
theorem converged_break_returns_pre_update_iterate (m : NumericModel)
    (solidity a b V Omega r phi Cn Ct tol : ℚ) (n : ℕ)
    (h1 : |a - (specInductionUpdate m solidity V Omega r Cn Ct (a, b)).1| < tol)
    (h2 : |b - (specInductionUpdate m solidity V Omega r Cn Ct (a, b)).2| < tol) :
    compute_element_induction_factors m solidity a b V Omega r phi Cn Ct tol
      (n + 1) = (a, b) := by
  show ceifLoop m solidity V Omega r Cn Ct tol (n + 1) a b = (a, b)
  rw [ceifLoop_succ, if_pos ⟨h1, h2⟩]

/-- Witness for the amended C2 at the counterexample point. -/
theorem converged_break_returns_pre_update_iterate_witness :
    |(11 / 20 : ℚ) - (specInductionUpdate trigSample 1 0 0 5 (36 / 25) (96 / 25)
        (11 / 20, -(39 / 20))).1| < 1 / 10 ∧
    compute_element_induction_factors trigSample 1 (11 / 20) (-(39 / 20)) 0 0 5 0
        (36 / 25) (96 / 25) (1 / 10) 8 = (11 / 20, -(39 / 20)) :=
  ⟨by norm_num [specInductionUpdate, trigSample, abs_lt],
   converged_break_returns_pre_update_iterate trigSample 1 (11 / 20)
     (-(39 / 20)) 0 0 5 0 (36 / 25) (96 / 25) (1 / 10) 7
     (by norm_num [specInductionUpdate, trigSample, abs_lt])
     (by norm_num [specInductionUpdate, trigSample, abs_lt])⟩

/-- Counterexample to C4: with Ct = 0 (the degenerate case named by the
claim) at a phi with sin(phi) = 0 and sigma Cn = 1 nonzero, the axial
update is computed unguarded: after one pass the returned a is 1, not
the previous a = 1/4 that the claimed guard (a_new = a) would preserve.
The axial arithmetic here is exact in the source as well
(0.0/1.0 = 0.0); only the tangential component, whose numpy value at
sigma Ct = 0 is the non-finite result of 0.0/0.0, is left out of the
assertion. -/
theorem no_divzero_guard_cex :
    (compute_element_induction_factors zeroSinTrig 1 (1 / 4) 0 0 0 5 0 1 0
        (1 / 10) 1).1 = 1 ∧
    ((1 : ℚ) ≠ 1 / 4) := by
  constructor
  · show (ceifLoop zeroSinTrig 1 0 0 5 1 0 (1 / 10) 1 (1 / 4) 0).1 = 1
    rw [show (1 : ℕ) = 0 + 1 from rfl, ceifLoop_succ]
    have hupd : (specInductionUpdate zeroSinTrig 1 0 0 5 1 0 (1 / 4, 0)).1 = 1 := by
      norm_num [specInductionUpdate, zeroSinTrig]
    rw [if_neg ?_]
    · rw [hupd]
      rfl
    · rw [hupd]
      intro hc
      have := hc.1
      rw [abs_lt] at this
      norm_num at this
  · norm_num

/-- C4 amended: no Cn = 0 or Ct = 0 guard exists.  First conjunct: even
with Ct = 0 the loop body applies the unguarded update formulas, and at
a phi with sin(phi) = 0 and sigma Cn nonzero the axial factor becomes 1
regardless of the incoming a (so a_new = a does not hold).  Second
conjunct: the elemental thrust and torque vanish at zero wind speed
because dT and dM carry factors V^2 and V, not because of any guard. -/
theorem unguarded_update_and_zero_wind_loads :
    (∀ (m : NumericModel) (solidity a b V Omega r phi Cn tol : ℚ),
      m.sin (m.atan2 ((1 - a) * V) ((1 + b) * Omega * r)) = 0 →
      solidity * Cn ≠ 0 → tol ≤ 0 →
      (compute_element_induction_factors m solidity a b V Omega r phi Cn 0
        tol 1).1 = 1) ∧
    (∀ (m : NumericModel) (omega rho : ℚ) (e : BladeElementState)
        (x : BladeElementState × ℚ × ℚ),
      elementLoads m 0 omega rho e = some x → x.2.1 = 0 ∧ x.2.2 = 0) := by
  constructor
  · intro m solidity a b V Omega r phi Cn tol hs hCn htol
    show (ceifLoop m solidity V Omega r Cn 0 tol 1 a b).1 = 1
    rw [show (1 : ℕ) = 0 + 1 from rfl, ceifLoop_succ]
    have hupd : (specInductionUpdate m solidity V Omega r Cn 0 (a, b)).1 = 1 := by
      simp [specInductionUpdate, hs]
    rw [if_neg ?_]
    · rw [hupd]
      rfl
    · intro hc
      exact absurd (lt_of_lt_of_le hc.1 htol) (not_lt.mpr (abs_nonneg _))
  · exact fun m omega rho e x h => elementLoads_wind_zero m omega rho e x h

lemma perfLoop_wind_zero :
    ∀ (es : List BladeElementState) (m : NumericModel) (omega rho : ℚ)
      (y : List BladeElementState × ℚ × ℚ),
      perfLoop m 0 omega rho es = some y → y.2.1 = 0 ∧ y.2.2 = 0 := by
  intro es
  induction es with
  | nil =>
    intro m omega rho y h
    simp only [perfLoop, Option.some.injEq] at h
    rw [← h]
    exact ⟨rfl, rfl⟩
  | cons e t ih =>
    intro m omega rho y h
    simp only [perfLoop, Option.bind_eq_bind, Option.bind_eq_some,
      Option.some.injEq] at h
    obtain ⟨x, hx, z, hz, hy⟩ := h
    have h1 := elementLoads_wind_zero m omega rho e x hx
    have h2 := ih m omega rho z hz
    rw [← hy]
    constructor
    · show x.2.1 + z.2.1 = 0
      rw [h1.1, h2.1, add_zero]
    · show x.2.2 + z.2.2 = 0
      rw [h1.2, h2.2, add_zero]

/-- C5: at the operating point V = 0 (and Omega = 0) any successful run
of the rotor aggregation returns exactly zero thrust, torque, power and
coefficients: the dT and dM formulas carry V factors, and the
coefficient denominators are zero, so the source conditional guards set
ct = cp = 0 instead of dividing. -/
theorem zero_wind_performance_all_zero (m : NumericModel)
    (elements : List BladeElementState) (R : ℚ) (cond : OperationalCondition)
    (out : List BladeElementState × (ℚ × ℚ × ℚ × ℚ × ℚ))
    (hV : cond.wind_speed = 0) (hw : cond.omega = some 0)
    (h : compute_aerodynamic_performance m elements R cond = some out) :
    out.2 = (0, 0, 0, 0, 0) := by
  unfold compute_aerodynamic_performance at h
  rw [hV, hw] at h
  simp only [Option.bind_eq_bind, Option.some_bind, Option.bind_eq_some,
    Option.some.injEq] at h
  obtain ⟨y, hy, hout⟩ := h
  have hz := perfLoop_wind_zero elements m 0 cond.rho y hy
  rw [← hout]
  simp [hz.1, hz.2]

/-- Witness for C5 at a concrete solved station. -/
theorem zero_wind_performance_all_zero_witness :
    zeroWindCondition.wind_speed = 0 ∧ zeroWindCondition.omega = some 0 ∧
    compute_aerodynamic_performance trigSample [sampleSolvedElement] 5
      zeroWindCondition = some sampleZeroWindOutput ∧
    sampleZeroWindOutput.2 = (0, 0, 0, 0, 0) := by
  have hc : compute_aerodynamic_performance trigSample [sampleSolvedElement] 5
      zeroWindCondition = some sampleZeroWindOutput := by
    norm_num [compute_aerodynamic_performance, perfLoop, elementLoads,
      sampleSolvedElement, sampleLoadedElement, zeroWindCondition,
      sampleZeroWindOutput, trigSample, Option.bind]
  exact ⟨rfl, rfl, hc, zero_wind_performance_all_zero trigSample
    [sampleSolvedElement] 5 zeroWindCondition sampleZeroWindOutput rfl rfl hc⟩

/-- Witness for the amended C4: the degenerate point with sin(phi) = 0,
sigma Cn = 1 and Ct = 0, and a concrete zero-wind elemental load. -/
theorem unguarded_update_and_zero_wind_loads_witness :
    zeroSinTrig.sin (zeroSinTrig.atan2 ((1 - 1 / 4) * 0) ((1 + 0) * 0 * 5)) = 0 ∧
    ((1 : ℚ) * 1 ≠ 0) ∧ ((0 : ℚ) ≤ 0) ∧
    (compute_element_induction_factors zeroSinTrig 1 (1 / 4) 0 0 0 5 0 1 0
      0 1).1 = 1 ∧
    elementLoads trigSample 0 0 (1.225 : ℚ) sampleSolvedElement =
      some (sampleLoadedElement, 0, 0) ∧
    ((sampleLoadedElement, (0 : ℚ), (0 : ℚ)).2.1 = 0 ∧
     (sampleLoadedElement, (0 : ℚ), (0 : ℚ)).2.2 = 0) := by
  have hel : elementLoads trigSample 0 0 (1.225 : ℚ) sampleSolvedElement =
      some (sampleLoadedElement, 0, 0) := by
    norm_num [elementLoads, sampleSolvedElement, sampleLoadedElement,
      trigSample, Option.bind]
  exact ⟨rfl, by norm_num, le_refl 0,
    unguarded_update_and_zero_wind_loads.1 zeroSinTrig 1 (1 / 4) 0 0 0 5 0 1 0
      rfl (by norm_num) (le_refl 0),
    hel,
    unguarded_update_and_zero_wind_loads.2 trigSample 0 (1.225 : ℚ)
      sampleSolvedElement (sampleLoadedElement, 0, 0) hel⟩

/-- Counterexample to C9: a station with no assigned airfoil is NOT
rejected at construction time.  BladeElement.__init__ accepts
airfoil = None and produces a normal element, and
compute_induction_factors then silently skips the whole aerodynamic
computation, returning the element unchanged with every solver output
equal to None (absent loads) -- the exact behavior the claim says is
avoided. -/
theorem missing_airfoil_silently_skipped_cex :
    (BladeElement.init 5 10 (1 / 2) 1 none).airfoil = none ∧
    compute_induction_factors trigSample (BladeElement.init 5 10 (1 / 2) 1 none)
        0 0 100 (1 / 100000) sampleSchedule sampleCondition =
      some (BladeElement.init 5 10 (1 / 2) 1 none,
        (none, none, none, none, none, none, none, none)) :=
  ⟨rfl, rfl⟩

/-- C9 amended: construction accepts the airfoil-less station, and the
solve returns successfully with the element unchanged and all eight
returned values None, for any arguments (provided omega has been set on
the condition, which the skip path still reads). -/
theorem missing_airfoil_skip_returns_none (m : NumericModel)
    (r twist chord : ℚ) (aid : ℤ) (a_guess a_prime_guess : ℚ)
    (max_iterations : ℕ) (tol : ℚ) (oc : OperationalCharacteristics)
    (cond : OperationalCondition) (omega : ℚ) (hw : cond.omega = some omega) :
    compute_induction_factors m (BladeElement.init r twist chord aid none)
        a_guess a_prime_guess max_iterations tol oc cond =
      some (BladeElement.init r twist chord aid none,
        (none, none, none, none, none, none, none, none)) := by
  unfold compute_induction_factors
  rw [hw]
  rfl

/-- Witness for the amended C9 at concrete arguments. -/
theorem missing_airfoil_skip_returns_none_witness :
    sampleCondition.omega = some (4 / 5) ∧
    compute_induction_factors trigSample (BladeElement.init 2 3 (1 / 4) 7 none)
        0 0 50 (1 / 1000) sampleSchedule sampleCondition =
      some (BladeElement.init 2 3 (1 / 4) 7 none,
        (none, none, none, none, none, none, none, none)) :=
  ⟨rfl, missing_airfoil_skip_returns_none trigSample 2 3 (1 / 4) 7 0 0 50
    (1 / 1000) sampleSchedule sampleCondition (4 / 5) rfl⟩

lemma npInterp_cons_cons (x : ℚ) (p q : ℚ × ℚ) (rest : List (ℚ × ℚ)) :
    npInterp x (p :: q :: rest) =
      if x ≤ p.1 then p.2
      else if x ≤ q.1 then p.2 + (q.2 - p.2) * (x - p.1) / (q.1 - p.1)
      else npInterp x (q :: rest) := rfl

lemma npInterp_clamp_low (p : ℚ × ℚ) (rest : List (ℚ × ℚ)) (x : ℚ)
    (hx : x ≤ p.1) : npInterp x (p :: rest) = p.2 := by
  cases rest with
  | nil => rfl
  | cons q t => simp [npInterp, hx]

lemma chain_head_le_getLast :
    ∀ (l : List (ℚ × ℚ)) (a pl : ℚ × ℚ),
      List.Chain' (fun p q => p.1 < q.1) (a :: l) →
      (a :: l).getLast? = some pl → a.1 ≤ pl.1 := by
  intro l
  induction l with
  | nil =>
    intro a pl _ hlast
    simp only [List.getLast?_singleton, Option.some.injEq] at hlast
    rw [← hlast]
  | cons b t ih =>
    intro a pl hchain hlast
    rw [List.getLast?_cons_cons] at hlast
    have hab := (List.chain'_cons.mp hchain).1
    exact le_trans (le_of_lt hab)
      (ih b pl (List.chain'_cons.mp hchain).2 hlast)

lemma npInterp_clamp_high :
    ∀ (l : List (ℚ × ℚ)) (pl : ℚ × ℚ) (x : ℚ),
      List.Chain' (fun p q => p.1 < q.1) l → l.getLast? = some pl →
      pl.1 ≤ x → npInterp x l = pl.2 := by
  intro l
  induction l with
  | nil => intro pl x _ hlast; simp at hlast
  | cons p t ih =>
    intro pl x hchain hlast hx
    cases t with
    | nil =>
      simp only [List.getLast?_singleton, Option.some.injEq] at hlast
      rw [← hlast]
      rfl
    | cons q t2 =>
      rw [List.getLast?_cons_cons] at hlast
      have hpq := (List.chain'_cons.mp hchain).1
      have hch2 := (List.chain'_cons.mp hchain).2
      have hqle : q.1 ≤ pl.1 := chain_head_le_getLast t2 q pl hch2 hlast
      have hpx : ¬ x ≤ p.1 :=
        not_le.mpr (lt_of_lt_of_le hpq (le_trans hqle hx))
      by_cases hqx : x ≤ q.1
      · cases t2 with
        | nil =>
          simp only [List.getLast?_singleton, Option.some.injEq] at hlast
          have hxq : x = q.1 := le_antisymm hqx (le_trans (hlast ▸ hx) (le_refl _))
          have hne : q.1 - p.1 ≠ 0 := ne_of_gt (sub_pos.mpr hpq)
          simp only [npInterp, if_neg hpx, if_pos hqx]
          rw [← hlast, hxq]
          field_simp
        | cons rr t3 =>
          have hqr := (List.chain'_cons.mp hch2).1
          rw [List.getLast?_cons_cons] at hlast
          have hrle : rr.1 ≤ pl.1 :=
            chain_head_le_getLast t3 rr pl (List.chain'_cons.mp hch2).2 hlast
          exact absurd hqx
            (not_le.mpr (lt_of_lt_of_le hqr (le_trans hrle hx)))
      · simp only [npInterp, if_neg hpx, if_neg hqx]
        exact ih pl x hch2 hlast hx

lemma chain_append_head_le :
    ∀ (l : List (ℚ × ℚ)) (pa : ℚ × ℚ) (rest : List (ℚ × ℚ)) (d : ℚ × ℚ),
      List.Chain' (fun p q => p.1 < q.1) (l ++ pa :: rest) →
      (l ++ pa :: rest).head? = some d → d.1 ≤ pa.1 := by
  intro l
  induction l with
  | nil =>
    intro pa rest d _ hd
    simp only [List.nil_append, List.head?_cons, Option.some.injEq] at hd
    rw [← hd]
  | cons c t ih =>
    intro pa rest d hchain hd
    simp only [List.cons_append, List.head?_cons, Option.some.injEq] at hd
    rw [← hd]
    rw [List.cons_append] at hchain
    have hch2 := (List.chain'_cons'.mp hchain).2
    have hcy := (List.chain'_cons'.mp hchain).1
    cases hht : (t ++ pa :: rest).head? with
    | none =>
      exfalso
      cases t <;> simp at hht
    | some d2 =>
      have hcd2 : c.1 < d2.1 := hcy d2 hht
      exact le_trans (le_of_lt hcd2) (ih pa rest d2 hch2 hht)

lemma npInterp_segment :
    ∀ (l1 : List (ℚ × ℚ)) (pa pb : ℚ × ℚ) (l2 : List (ℚ × ℚ)) (x : ℚ),
      List.Chain' (fun p q => p.1 < q.1) (l1 ++ pa :: pb :: l2) →
      pa.1 < x → x ≤ pb.1 →
      npInterp x (l1 ++ pa :: pb :: l2) =
        pa.2 + (pb.2 - pa.2) * (x - pa.1) / (pb.1 - pa.1) := by
  intro l1
  induction l1 with
  | nil =>
    intro pa pb l2 x _ hax hxb
    have hne : ¬ x ≤ pa.1 := not_le.mpr hax
    simp only [List.nil_append, npInterp, if_neg hne, if_pos hxb]
  | cons c t ih =>
    intro pa pb l2 x hchain hax hxb
    rw [List.cons_append] at hchain ⊢
    have hch2 := (List.chain'_cons'.mp hchain).2
    have hcy := (List.chain'_cons'.mp hchain).1
    cases hht : t ++ pa :: pb :: l2 with
    | nil =>
      exfalso
      cases t <;> simp at hht
    | cons d t2 =>
      have hd_head : (t ++ pa :: pb :: l2).head? = some d := by rw [hht]; rfl
      have hd_le : d.1 ≤ pa.1 :=
        chain_append_head_le t pa (pb :: l2) d hch2 hd_head
      have hcd : c.1 < d.1 := hcy d hd_head
      have h1 : ¬ x ≤ c.1 :=
        not_le.mpr (lt_trans (lt_of_lt_of_le hcd hd_le) hax)
      have h2 : ¬ x ≤ d.1 := not_le.mpr (lt_of_le_of_lt hd_le hax)
      rw [npInterp_cons_cons, if_neg h1, if_neg h2]
      rw [← hht]
      exact ih pa pb l2 x hch2 hax hxb

/-- C8: np.interp-style lookup on a strictly sorted table (as used for
Cl/Cd against the airfoil polar and pitch/rpm against the operational
schedule) is total (no query can fail), returns the first sample value
for any query at or below the lower boundary, the last sample value for
any query at or above the upper boundary, and the linear interpolant
between any two adjacent samples inside the table. -/
theorem interp_clamps_and_piecewise_linear (pts : List (ℚ × ℚ))
    (hsorted : List.Chain' (fun p q => p.1 < q.1) pts) :
    (∀ x p, pts.head? = some p → x ≤ p.1 → npInterp x pts = p.2) ∧
    (∀ x p, pts.getLast? = some p → p.1 ≤ x → npInterp x pts = p.2) ∧
    (∀ x l1 pa pb l2, pts = l1 ++ pa :: pb :: l2 → pa.1 < x → x ≤ pb.1 →
      npInterp x pts = pa.2 + (pb.2 - pa.2) * (x - pa.1) / (pb.1 - pa.1)) := by
  refine ⟨?_, ?_, ?_⟩
  · intro x p hp hx
    cases pts with
    | nil => simp at hp
    | cons p0 t =>
      simp only [List.head?_cons, Option.some.injEq] at hp
      rw [← hp] at hx ⊢
      exact npInterp_clamp_low p0 t x hx
  · intro x p hp hx
    exact npInterp_clamp_high pts p x hsorted hp hx
  · intro x l1 pa pb l2 hsplit hax hxb
    rw [hsplit] at hsorted ⊢
    exact npInterp_segment l1 pa pb l2 x hsorted hax hxb

/-- Witness for C8 on the concrete sorted table [(0, 1), (2, 5)]:
clamping below, clamping above, and the midpoint interpolant. -/
theorem interp_clamps_and_piecewise_linear_witness :
    List.Chain' (fun p q : ℚ × ℚ => p.1 < q.1) [(0, 1), (2, 5)] ∧
    npInterp (-3) [((0 : ℚ), (1 : ℚ)), (2, 5)] = 1 ∧
    npInterp 7 [((0 : ℚ), (1 : ℚ)), (2, 5)] = 5 ∧
    npInterp 1 [((0 : ℚ), (1 : ℚ)), (2, 5)] = 3 := by
  have hs : List.Chain' (fun p q : ℚ × ℚ => p.1 < q.1)
      [((0 : ℚ), (1 : ℚ)), (2, 5)] := by
    norm_num [List.chain'_cons, List.chain'_singleton]
  have h := interp_clamps_and_piecewise_linear [((0 : ℚ), (1 : ℚ)), (2, 5)] hs
  refine ⟨hs, h.1 (-3) (0, 1) rfl (by norm_num),
    h.2.1 7 (2, 5) (by norm_num [List.getLast?]) (by norm_num), ?_⟩
  have hseg := h.2.2 1 [] (0, 1) (2, 5) [] rfl (by norm_num) (by norm_num)
  rw [hseg]
  norm_num

end WindWizards
